import Mathlib

/-!
Shallow embedding of the block decoding engine of `src/block.rs` (binarygcode).

Conventions of the embedding:
* Byte buffers are `List Nat` of values below 256 (`bytes_ok`).
* `usize` arithmetic is modelled with `Nat` reduced modulo `2 ^ 64`
  (release-profile wrapping semantics of Rust integer overflow).
* A Rust computation that can fail is a value of `ROut α`: `ok` for
  `Ok`, `err` for a typed `Err(BlockDeserialiserError)`, and `panic`
  for an abort (out-of-bounds slice index, a `todo!()` body, or a
  `Vec` capacity overflow).
-/

/-- The `usize` modulus: the reference target is 64-bit. -/
def USIZE : Nat := 2 ^ 64

/-- Largest `Vec` capacity: `isize::MAX` bytes (`Vec::reserve_exact` panics beyond it). -/
def ISIZE_MAX : Nat := 2 ^ 63 - 1

/-- All entries of the list are bytes. -/
def bytes_ok (l : List Nat) : Bool :=
  l.all (fun b => decide (b < 256))

/-- `u16::from_le_bytes` / `u32::from_le_bytes`: little-endian value of a byte list. -/
def from_le : List Nat → Nat
  | [] => 0
  | b :: rest => b + 256 * from_le rest

/-- Modelled from the spec: `FileChecksum` lives in `src/file_header.rs`, which is not
among the given sources; the spec describes it as the checksum mode of the whole file,
None or Crc32. -/
inductive FileChecksum
  | none
  | crc32
deriving DecidableEq, Repr

/-- Modelled from the spec: the checksum trailer byte width, 0 for None and 4 for Crc32. -/
def FileChecksum.checksum_byte_size : FileChecksum → Nat
  | FileChecksum.none => 0
  | FileChecksum.crc32 => 4

/-- `BlockDeserialiserError` from `src/block.rs`. -/
inductive BlockDeserialiserError
  | UnsupportedCompressionAlgorithm (v : Nat)
  | UnsupportedBlockKind (v : Nat)
  | IsNotCompressed
  | DataLengthMissMatch
  | TryFromSliceError
  | EncodingError (v : Nat)
deriving DecidableEq, Repr

/-- Outcome of a fallible Rust operation: a value, a typed error, or a panic. -/
inductive ROut (α : Type)
  | ok (a : α)
  | err (e : BlockDeserialiserError)
  | panic
deriving DecidableEq, Repr

/-- Rust slice `buf[lo..hi]` (half-open); `Option.none` models the index panic
raised when the range does not fit the buffer. -/
def sliceRange (buf : List Nat) (lo hi : Nat) : Option (List Nat) :=
  if lo ≤ hi ∧ hi ≤ buf.length then Option.some ((buf.drop lo).take (hi - lo)) else Option.none

/-- `try_from_slice::<N>` from `src/block.rs`: array conversion of a slice,
`TryFromSliceError` when the length differs from `N`. -/
def try_from_slice (n : Nat) (s : List Nat) : ROut (List Nat) :=
  if s.length = n then ROut.ok s else ROut.err BlockDeserialiserError.TryFromSliceError

/-- The composite `try_from_slice::<n>(&buf[lo..hi])` as used by every accessor:
the indexing itself panics when the buffer is shorter than `hi`. -/
def read_field (buf : List Nat) (lo hi n : Nat) : ROut (List Nat) :=
  match sliceRange buf lo hi with
  | Option.none => ROut.panic
  | Option.some s => try_from_slice n s

/-- `BlockKind` from `src/block.rs`. -/
inductive BlockKind
  | FileMetadata
  | GCode
  | SlicerMetadata
  | PrinterMetadata
  | PrintMetadata
  | Thumbnail
deriving DecidableEq, Repr

/-- `BlockKind::new`: decode the 16-bit tag, unknown values are an error. -/
def BlockKind.new (value : Nat) : ROut BlockKind :=
  match value with
  | 0 => ROut.ok BlockKind.FileMetadata
  | 1 => ROut.ok BlockKind.GCode
  | 2 => ROut.ok BlockKind.SlicerMetadata
  | 3 => ROut.ok BlockKind.PrinterMetadata
  | 4 => ROut.ok BlockKind.PrintMetadata
  | 5 => ROut.ok BlockKind.Thumbnail
  | v => ROut.err (BlockDeserialiserError.UnsupportedBlockKind v)

/-- `BlockKind::to_le_bytes`, byte for byte as written in the source:
`FileMetadata => 0u16.to_le_bytes()` is `[0, 0]`, `GCode => 1u16.to_be_bytes()`
is `[0, 1]`, `SlicerMetadata => 1u16.to_le_bytes()` is `[1, 0]`,
`PrinterMetadata => 2u16.to_le_bytes()` is `[2, 0]`, `PrintMetadata =>
3u16.to_le_bytes()` is `[3, 0]`, `Thumbnail => 4u16.to_le_bytes()` is `[4, 0]`. -/
def BlockKind.to_le_bytes : BlockKind → List Nat
  | BlockKind.FileMetadata => [0, 0]
  | BlockKind.GCode => [0, 1]
  | BlockKind.SlicerMetadata => [1, 0]
  | BlockKind.PrinterMetadata => [2, 0]
  | BlockKind.PrintMetadata => [3, 0]
  | BlockKind.Thumbnail => [4, 0]

/-- `BlockKind::from_le_bytes`. -/
def BlockKind.from_le_bytes (bytes : List Nat) : ROut BlockKind :=
  BlockKind.new (from_le bytes)

/-- `BlockKind::parameter_byte_size`: 6 for Thumbnail, 2 otherwise. -/
def BlockKind.parameter_byte_size : BlockKind → Nat
  | BlockKind.Thumbnail => 6
  | _ => 2

/-- `CompressionAlgorithm` from `src/block.rs`. -/
inductive CompressionAlgorithm
  | None
  | Deflate
  | Heatshrink11_4
  | Heatshrink12_4
deriving DecidableEq, Repr

/-- `CompressionAlgorithm::new`: decode the 16-bit tag, unknown values are an error. -/
def CompressionAlgorithm.new (value : Nat) : ROut CompressionAlgorithm :=
  match value with
  | 0 => ROut.ok CompressionAlgorithm.None
  | 1 => ROut.ok CompressionAlgorithm.Deflate
  | 2 => ROut.ok CompressionAlgorithm.Heatshrink11_4
  | 3 => ROut.ok CompressionAlgorithm.Heatshrink12_4
  | v => ROut.err (BlockDeserialiserError.UnsupportedCompressionAlgorithm v)

/-- `CompressionAlgorithm::to_le_bytes`, byte for byte as written in the source:
`None => 0u16.to_le_bytes()` is `[0, 0]`, `Deflate => 1u16.to_be_bytes()` is
`[0, 1]`, `Heatshrink11_4 => 2u16.to_le_bytes()` is `[2, 0]`,
`Heatshrink12_4 => 3u16.to_le_bytes()` is `[3, 0]`. -/
def CompressionAlgorithm.to_le_bytes : CompressionAlgorithm → List Nat
  | CompressionAlgorithm.None => [0, 0]
  | CompressionAlgorithm.Deflate => [0, 1]
  | CompressionAlgorithm.Heatshrink11_4 => [2, 0]
  | CompressionAlgorithm.Heatshrink12_4 => [3, 0]

/-- `CompressionAlgorithm::from_le_bytes`. -/
def CompressionAlgorithm.from_le_bytes (bytes : List Nat) : ROut CompressionAlgorithm :=
  CompressionAlgorithm.new (from_le bytes)

/-- `BlockDeserialiser`: the accumulating buffer and the file checksum mode. -/
structure BlockDeserialiser where
  buf : List Nat
  checksum : FileChecksum
deriving DecidableEq, Repr

/-- `BlockDeserialiser::kind`: `try_from_slice::<2>(&self.buf[0..=1])` then decode. -/
def BlockDeserialiser.kind (d : BlockDeserialiser) : ROut BlockKind :=
  match read_field d.buf 0 2 2 with
  | ROut.ok bytes => BlockKind.from_le_bytes bytes
  | ROut.err e => ROut.err e
  | ROut.panic => ROut.panic

/-- `BlockDeserialiser::compression`: `try_from_slice::<2>(&self.buf[2..=3])` then decode. -/
def BlockDeserialiser.compression (d : BlockDeserialiser) : ROut CompressionAlgorithm :=
  match read_field d.buf 2 4 2 with
  | ROut.ok bytes => CompressionAlgorithm.from_le_bytes bytes
  | ROut.err e => ROut.err e
  | ROut.panic => ROut.panic

/-- `BlockDeserialiser::compressed_size`: `IsNotCompressed` when compression is None,
otherwise the LE u32 at `buf[8..=11]`. -/
def BlockDeserialiser.compressed_size (d : BlockDeserialiser) : ROut Nat :=
  match d.compression with
  | ROut.ok CompressionAlgorithm.None => ROut.err BlockDeserialiserError.IsNotCompressed
  | ROut.ok _ =>
    match read_field d.buf 8 12 4 with
    | ROut.ok bytes => ROut.ok (from_le bytes)
    | ROut.err e => ROut.err e
    | ROut.panic => ROut.panic
  | ROut.err e => ROut.err e
  | ROut.panic => ROut.panic

/-- `BlockDeserialiser::uncompressed_size`: the LE u32 at `buf[4..=7]`. -/
def BlockDeserialiser.uncompressed_size (d : BlockDeserialiser) : ROut Nat :=
  match read_field d.buf 4 8 4 with
  | ROut.ok bytes => ROut.ok (from_le bytes)
  | ROut.err e => ROut.err e
  | ROut.panic => ROut.panic

/-- `BlockDeserialiser::block_size`: parameter width plus checksum trailer width,
then minus 4 plus `uncompressed_size` when compression is None (wrapping `usize`
subtraction), or plus `compressed_size` otherwise. -/
def BlockDeserialiser.block_size (d : BlockDeserialiser) : ROut Nat :=
  match d.kind with
  | ROut.err e => ROut.err e
  | ROut.panic => ROut.panic
  | ROut.ok k =>
    match d.compression with
    | ROut.err e => ROut.err e
    | ROut.panic => ROut.panic
    | ROut.ok CompressionAlgorithm.None =>
      match d.uncompressed_size with
      | ROut.ok u =>
        ROut.ok (((k.parameter_byte_size + d.checksum.checksum_byte_size + USIZE - 4) % USIZE
          + u) % USIZE)
      | ROut.err e => ROut.err e
      | ROut.panic => ROut.panic
    | ROut.ok _ =>
      match d.compressed_size with
      | ROut.ok c =>
        ROut.ok ((k.parameter_byte_size + d.checksum.checksum_byte_size + c) % USIZE)
      | ROut.err e => ROut.err e
      | ROut.panic => ROut.panic

/-- `BlockDeserialiser::header_buf`: reset the buffer to 12 zero bytes. -/
def BlockDeserialiser.header_buf (d : BlockDeserialiser) : BlockDeserialiser :=
  { d with buf := List.replicate 12 0 }

/-- `BlockDeserialiser::data_buf`: grow the buffer by `block_size()` zero bytes.
`Vec::reserve_exact` panics when the new capacity exceeds `isize::MAX` bytes. -/
def BlockDeserialiser.data_buf (d : BlockDeserialiser) : ROut BlockDeserialiser :=
  match d.block_size with
  | ROut.ok additional =>
    if ISIZE_MAX < d.buf.length + additional then ROut.panic
    else ROut.ok { d with buf := d.buf ++ List.replicate additional 0 }
  | ROut.err e => ROut.err e
  | ROut.panic => ROut.panic

/-- The start offset of the encoding tag inside `deserialise_thumbnail_data` and
`deserialise_ini_data`: `idx = 8` when compression is None, `idx = 12` otherwise. -/
def enc_tag_offset : CompressionAlgorithm → Nat
  | CompressionAlgorithm.None => 8
  | _ => 12

/-- The `end` computation shared by `deserialise_thumbnail_data` and
`deserialise_ini_data`: the buffer length, minus 4 under Crc32. The wrapped
`usize` subtraction on a buffer shorter than 4 makes the following
`&self.buf[end..]` slice panic, modelled by `Option.none`. -/
def BlockDeserialiser.data_end (d : BlockDeserialiser) : Option Nat :=
  match d.checksum with
  | FileChecksum.none => Option.some d.buf.length
  | FileChecksum.crc32 =>
    if 4 ≤ d.buf.length then Option.some (d.buf.length - 4) else Option.none

/-- `BlockDeserialiser::deserialise_data`: pass-through copy of `buf[start..stop]`
when compression is None; the Deflate and Heatshrink bodies are `todo!()`. -/
def BlockDeserialiser.deserialise_data (d : BlockDeserialiser) (start stop : Nat) :
    ROut (List Nat) :=
  match d.compression with
  | ROut.ok CompressionAlgorithm.None =>
    match sliceRange d.buf start stop with
    | Option.some s => ROut.ok s
    | Option.none => ROut.panic
  | ROut.ok _ => ROut.panic
  | ROut.err e => ROut.err e
  | ROut.panic => ROut.panic

/-- `BlockDeserialiser::deserialise_thumbnail_data`: encoding tag at `idx`,
allowed when at most 2, then the data between `idx + 2` and the checksum trailer. -/
def BlockDeserialiser.deserialise_thumbnail_data (d : BlockDeserialiser) : ROut (List Nat) :=
  match d.compression with
  | ROut.err e => ROut.err e
  | ROut.panic => ROut.panic
  | ROut.ok c =>
    match read_field d.buf (enc_tag_offset c) (enc_tag_offset c + 2) 2 with
    | ROut.err e => ROut.err e
    | ROut.panic => ROut.panic
    | ROut.ok encBytes =>
      if 2 < from_le encBytes then
        ROut.err (BlockDeserialiserError.EncodingError (from_le encBytes))
      else
        match d.data_end with
        | Option.none => ROut.panic
        | Option.some stop => d.deserialise_data (enc_tag_offset c + 2) stop

/-- `BlockDeserialiser::deserialise_ini_data`: encoding tag at `idx`, required to
equal 0, then the data between `idx + 2` and the checksum trailer. -/
def BlockDeserialiser.deserialise_ini_data (d : BlockDeserialiser) : ROut (List Nat) :=
  match d.compression with
  | ROut.err e => ROut.err e
  | ROut.panic => ROut.panic
  | ROut.ok c =>
    match read_field d.buf (enc_tag_offset c) (enc_tag_offset c + 2) 2 with
    | ROut.err e => ROut.err e
    | ROut.panic => ROut.panic
    | ROut.ok encBytes =>
      if from_le encBytes ≠ 0 then
        ROut.err (BlockDeserialiserError.EncodingError (from_le encBytes))
      else
        match d.data_end with
        | Option.none => ROut.panic
        | Option.some stop => d.deserialise_data (enc_tag_offset c + 2) stop

/-- `BlockDeserialiser::deserialise`: exact length check (`DataLengthMissMatch`
otherwise), then dispatch on the kind; the GCode arm is `todo!()`. -/
def BlockDeserialiser.deserialise (d : BlockDeserialiser) : ROut (List Nat) :=
  match d.block_size with
  | ROut.err e => ROut.err e
  | ROut.panic => ROut.panic
  | ROut.ok bs =>
    if (12 + bs) % USIZE ≠ d.buf.length then
      ROut.err BlockDeserialiserError.DataLengthMissMatch
    else
      match d.kind with
      | ROut.err e => ROut.err e
      | ROut.panic => ROut.panic
      | ROut.ok BlockKind.FileMetadata => d.deserialise_ini_data
      | ROut.ok BlockKind.GCode => ROut.panic
      | ROut.ok BlockKind.PrintMetadata => d.deserialise_ini_data
      | ROut.ok BlockKind.PrinterMetadata => d.deserialise_ini_data
      | ROut.ok BlockKind.SlicerMetadata => d.deserialise_ini_data
      | ROut.ok BlockKind.Thumbnail => d.deserialise_thumbnail_data

/-! ### Helper lemmas -/

theorem USIZE_eq : USIZE = 18446744073709551616 := by norm_num [USIZE]

theorem ISIZE_MAX_eq : ISIZE_MAX = 9223372036854775807 := by norm_num [ISIZE_MAX]

theorem from_le_lt {l : List Nat} (h : bytes_ok l = true) : from_le l < 256 ^ l.length := by
  induction l with
  | nil => simp [from_le]
  | cons b rest ih =>
    simp only [bytes_ok, List.all_cons, Bool.and_eq_true, decide_eq_true_eq] at h
    have hr := ih (by simpa [bytes_ok] using h.2)
    simp only [from_le, List.length_cons, pow_succ]
    calc b + 256 * from_le rest < 256 + 256 * from_le rest := by omega
    _ ≤ 256 * (from_le rest + 1) := by ring_nf; omega
    _ ≤ 256 * 256 ^ rest.length := by
        have : from_le rest + 1 ≤ 256 ^ rest.length := hr
        exact Nat.mul_le_mul_left 256 this
    _ = 256 ^ rest.length * 256 := by ring

theorem bytes_ok_slice {l : List Nat} (h : bytes_ok l = true) (lo n : Nat) :
    bytes_ok ((l.drop lo).take n) = true := by
  simp only [bytes_ok, List.all_eq_true, decide_eq_true_eq] at h ⊢
  intro b hb
  exact h b (List.drop_subset lo l (List.take_subset n _ hb))

theorem slice_val_lt {l : List Nat} (h : bytes_ok l = true) {lo n : Nat}
    (hlen : lo + n ≤ l.length) : from_le ((l.drop lo).take n) < 256 ^ n := by
  have hb := bytes_ok_slice h lo n
  have hl : ((l.drop lo).take n).length = n := by
    simp only [List.length_take, List.length_drop]
    omega
  have := from_le_lt hb
  rwa [hl] at this

theorem read_field_ok {buf : List Nat} {lo n : Nat} (h : lo + n ≤ buf.length) :
    read_field buf lo (lo + n) n = ROut.ok ((buf.drop lo).take n) := by
  have hlo : lo ≤ lo + n := Nat.le_add_right lo n
  have hlen : ((buf.drop lo).take n).length = n := by
    simp only [List.length_take, List.length_drop]
    omega
  simp [read_field, sliceRange, try_from_slice, hlo, h, hlen]

theorem read_field_panic {buf : List Nat} {lo n : Nat} (h : buf.length < lo + n) :
    read_field buf lo (lo + n) n = ROut.panic := by
  simp only [read_field, sliceRange]
  rw [if_neg]
  intro hc
  omega

theorem kind_eval {d : BlockDeserialiser} (h : 2 ≤ d.buf.length) :
    d.kind = BlockKind.new (from_le (d.buf.take 2)) := by
  have := @read_field_ok d.buf 0 2 (by omega)
  simp only [Nat.zero_add, List.drop_zero] at this
  simp [BlockDeserialiser.kind, this, BlockKind.from_le_bytes]

theorem kind_panic {d : BlockDeserialiser} (h : d.buf.length < 2) :
    d.kind = ROut.panic := by
  have := @read_field_panic d.buf 0 2 (by omega)
  simp only [Nat.zero_add] at this
  simp [BlockDeserialiser.kind, this]

theorem compression_eval {d : BlockDeserialiser} (h : 4 ≤ d.buf.length) :
    d.compression = CompressionAlgorithm.new (from_le ((d.buf.drop 2).take 2)) := by
  have := @read_field_ok d.buf 2 2 (by omega)
  norm_num at this
  simp [BlockDeserialiser.compression, this, CompressionAlgorithm.from_le_bytes]

theorem compression_panic {d : BlockDeserialiser} (h : d.buf.length < 4) :
    d.compression = ROut.panic := by
  have := @read_field_panic d.buf 2 2 (by omega)
  norm_num at this
  simp [BlockDeserialiser.compression, this]

theorem uncompressed_size_eval {d : BlockDeserialiser} (h : 8 ≤ d.buf.length) :
    d.uncompressed_size = ROut.ok (from_le ((d.buf.drop 4).take 4)) := by
  have := @read_field_ok d.buf 4 4 (by omega)
  norm_num at this
  simp [BlockDeserialiser.uncompressed_size, this]

theorem uncompressed_size_panic {d : BlockDeserialiser} (h : d.buf.length < 8) :
    d.uncompressed_size = ROut.panic := by
  have := @read_field_panic d.buf 4 4 (by omega)
  norm_num at this
  simp [BlockDeserialiser.uncompressed_size, this]

theorem read_field_cases (buf : List Nat) (lo n : Nat) :
    read_field buf lo (lo + n) n = ROut.panic ∨
    read_field buf lo (lo + n) n = ROut.ok ((buf.drop lo).take n) := by
  by_cases h : lo + n ≤ buf.length
  · exact Or.inr (read_field_ok h)
  · exact Or.inl (read_field_panic (by omega))

theorem compression_ok_len {d : BlockDeserialiser} {c : CompressionAlgorithm}
    (h : d.compression = ROut.ok c) : 4 ≤ d.buf.length := by
  by_contra hlt
  rw [compression_panic (by omega)] at h
  exact ROut.noConfusion h

theorem kind_ok_len {d : BlockDeserialiser} {k : BlockKind}
    (h : d.kind = ROut.ok k) : 2 ≤ d.buf.length := by
  by_contra hlt
  rw [kind_panic (by omega)] at h
  exact ROut.noConfusion h

theorem uncompressed_size_ok_inv {d : BlockDeserialiser} {u : Nat}
    (h : d.uncompressed_size = ROut.ok u) :
    8 ≤ d.buf.length ∧ u = from_le ((d.buf.drop 4).take 4) := by
  by_cases hlen : 8 ≤ d.buf.length
  · rw [uncompressed_size_eval hlen] at h
    exact ⟨hlen, (ROut.ok.inj h).symm⟩
  · rw [uncompressed_size_panic (by omega)] at h
    exact absurd h (fun hc => ROut.noConfusion hc)

theorem compression_new_err {t : Nat} {e : BlockDeserialiserError}
    (h : CompressionAlgorithm.new t = ROut.err e) :
    e = BlockDeserialiserError.UnsupportedCompressionAlgorithm t := by
  unfold CompressionAlgorithm.new at h
  split at h
  all_goals first
    | exact absurd h (fun hc => ROut.noConfusion hc)
    | exact (ROut.err.inj h).symm

theorem compression_err_inv {d : BlockDeserialiser} {e : BlockDeserialiserError}
    (h : d.compression = ROut.err e) :
    ∃ v, e = BlockDeserialiserError.UnsupportedCompressionAlgorithm v := by
  by_cases hlen : 4 ≤ d.buf.length
  · rw [compression_eval hlen] at h
    exact ⟨_, compression_new_err h⟩
  · rw [compression_panic (by omega)] at h
    exact absurd h (fun hc => ROut.noConfusion hc)

theorem block_size_eval_none {d : BlockDeserialiser} {k : BlockKind} {u : Nat}
    (hk : d.kind = ROut.ok k) (hc : d.compression = ROut.ok CompressionAlgorithm.None)
    (hu : d.uncompressed_size = ROut.ok u) :
    d.block_size = ROut.ok
      (((k.parameter_byte_size + d.checksum.checksum_byte_size + USIZE - 4) % USIZE + u)
        % USIZE) := by
  unfold BlockDeserialiser.block_size
  rw [hk, hc, hu]

theorem block_size_eval_comp {d : BlockDeserialiser} {k : BlockKind}
    {c : CompressionAlgorithm} {cs : Nat}
    (hk : d.kind = ROut.ok k) (hc : d.compression = ROut.ok c)
    (hcn : c ≠ CompressionAlgorithm.None) (hcs : d.compressed_size = ROut.ok cs) :
    d.block_size = ROut.ok
      ((k.parameter_byte_size + d.checksum.checksum_byte_size + cs) % USIZE) := by
  unfold BlockDeserialiser.block_size
  rw [hk, hc]
  cases c with
  | None => exact absurd rfl hcn
  | Deflate => rw [hcs]
  | Heatshrink11_4 => rw [hcs]
  | Heatshrink12_4 => rw [hcs]

theorem block_size_ok_inv {d : BlockDeserialiser} {bs : Nat}
    (h : d.block_size = ROut.ok bs) :
    ∃ k c, d.kind = ROut.ok k ∧ d.compression = ROut.ok c ∧
      ((c = CompressionAlgorithm.None ∧ ∃ u, d.uncompressed_size = ROut.ok u ∧
          bs = ((k.parameter_byte_size + d.checksum.checksum_byte_size + USIZE - 4) % USIZE + u)
            % USIZE) ∨
        (c ≠ CompressionAlgorithm.None ∧ ∃ cs, d.compressed_size = ROut.ok cs ∧
          bs = (k.parameter_byte_size + d.checksum.checksum_byte_size + cs) % USIZE)) := by
  unfold BlockDeserialiser.block_size at h
  split at h
  case _ e he => exact absurd h (fun hc => ROut.noConfusion hc)
  case _ he => exact absurd h (fun hc => ROut.noConfusion hc)
  case _ k hk =>
    split at h
    case _ e he => exact absurd h (fun hc => ROut.noConfusion hc)
    case _ he => exact absurd h (fun hc => ROut.noConfusion hc)
    case _ hc =>
      split at h
      case _ u hu =>
        exact ⟨k, CompressionAlgorithm.None, hk, hc,
          Or.inl ⟨rfl, u, hu, (ROut.ok.inj h).symm⟩⟩
      case _ e he => exact absurd h (fun hcq => ROut.noConfusion hcq)
      case _ he => exact absurd h (fun hcq => ROut.noConfusion hcq)
    case _ c hcn hc =>
      split at h
      case _ cs hcs =>
        refine ⟨k, c, hk, hc, Or.inr ⟨?_, cs, hcs, (ROut.ok.inj h).symm⟩⟩
        intro hcontra
        subst hcontra
        exact hcn rfl
      case _ e he => exact absurd h (fun hcq => ROut.noConfusion hcq)
      case _ he => exact absurd h (fun hcq => ROut.noConfusion hcq)

theorem data_end_eval {d : BlockDeserialiser}
    (h : d.checksum.checksum_byte_size ≤ d.buf.length) :
    d.data_end = Option.some (d.buf.length - d.checksum.checksum_byte_size) := by
  cases hck : d.checksum <;>
    rw [hck] at h <;>
    simp_all [BlockDeserialiser.data_end, FileChecksum.checksum_byte_size]

theorem deserialise_data_eval_none {d : BlockDeserialiser} {start stop : Nat}
    (hc : d.compression = ROut.ok CompressionAlgorithm.None)
    (h1 : start ≤ stop) (h2 : stop ≤ d.buf.length) :
    d.deserialise_data start stop = ROut.ok ((d.buf.drop start).take (stop - start)) := by
  unfold BlockDeserialiser.deserialise_data
  rw [hc]
  simp [sliceRange, h1, h2]

theorem deserialise_data_comp_panic {d : BlockDeserialiser} {start stop : Nat}
    {c : CompressionAlgorithm} (hc : d.compression = ROut.ok c)
    (hcn : c ≠ CompressionAlgorithm.None) :
    d.deserialise_data start stop = ROut.panic := by
  unfold BlockDeserialiser.deserialise_data
  rw [hc]
  cases c with
  | None => exact absurd rfl hcn
  | Deflate => rfl
  | Heatshrink11_4 => rfl
  | Heatshrink12_4 => rfl

theorem deserialise_data_ne_DLMM (d : BlockDeserialiser) (start stop : Nat) :
    d.deserialise_data start stop ≠ ROut.err BlockDeserialiserError.DataLengthMissMatch := by
  intro h
  unfold BlockDeserialiser.deserialise_data at h
  split at h
  · split at h <;> exact ROut.noConfusion h
  · exact ROut.noConfusion h
  · rename_i e he
    obtain ⟨v, hv⟩ := compression_err_inv he
    have hinj := ROut.err.inj h
    rw [hinj] at hv
    exact BlockDeserialiserError.noConfusion hv
  · exact ROut.noConfusion h

theorem ini_eval_err {d : BlockDeserialiser} {c : CompressionAlgorithm}
    (hc : d.compression = ROut.ok c)
    (hlen : enc_tag_offset c + 2 ≤ d.buf.length)
    (henc : from_le ((d.buf.drop (enc_tag_offset c)).take 2) ≠ 0) :
    d.deserialise_ini_data =
      ROut.err (BlockDeserialiserError.EncodingError
        (from_le ((d.buf.drop (enc_tag_offset c)).take 2))) := by
  unfold BlockDeserialiser.deserialise_ini_data
  rw [hc]
  simp only []
  rw [read_field_ok hlen]
  simp only []
  rw [if_pos henc]

theorem ini_eval_ok {d : BlockDeserialiser}
    (hc : d.compression = ROut.ok CompressionAlgorithm.None)
    (hlen : 10 + d.checksum.checksum_byte_size ≤ d.buf.length)
    (henc : from_le ((d.buf.drop 8).take 2) = 0) :
    d.deserialise_ini_data = ROut.ok
      ((d.buf.drop 10).take (d.buf.length - d.checksum.checksum_byte_size - 10)) := by
  unfold BlockDeserialiser.deserialise_ini_data
  rw [hc]
  simp only []
  rw [show enc_tag_offset CompressionAlgorithm.None = 8 from rfl]
  rw [read_field_ok (by omega)]
  simp only []
  rw [if_neg (by simpa using henc)]
  rw [data_end_eval (by omega)]
  simp only []
  rw [deserialise_data_eval_none hc (by omega) (by omega)]

theorem ini_comp_panic {d : BlockDeserialiser} {c : CompressionAlgorithm}
    (hc : d.compression = ROut.ok c) (hcn : c ≠ CompressionAlgorithm.None)
    (hlen : 14 ≤ d.buf.length)
    (henc : from_le ((d.buf.drop 12).take 2) = 0) :
    d.deserialise_ini_data = ROut.panic := by
  have hoff : enc_tag_offset c = 12 := by
    cases c with
    | None => exact absurd rfl hcn
    | Deflate => rfl
    | Heatshrink11_4 => rfl
    | Heatshrink12_4 => rfl
  unfold BlockDeserialiser.deserialise_ini_data
  rw [hc]
  simp only []
  rw [hoff]
  rw [read_field_ok (by omega)]
  simp only []
  rw [if_neg (by simpa using henc)]
  cases hde : d.data_end with
  | none => rfl
  | some stop =>
    simp only []
    exact deserialise_data_comp_panic hc hcn

theorem thumb_eval_err {d : BlockDeserialiser} {c : CompressionAlgorithm}
    (hc : d.compression = ROut.ok c)
    (hlen : enc_tag_offset c + 2 ≤ d.buf.length)
    (henc : 2 < from_le ((d.buf.drop (enc_tag_offset c)).take 2)) :
    d.deserialise_thumbnail_data =
      ROut.err (BlockDeserialiserError.EncodingError
        (from_le ((d.buf.drop (enc_tag_offset c)).take 2))) := by
  unfold BlockDeserialiser.deserialise_thumbnail_data
  rw [hc]
  simp only []
  rw [read_field_ok hlen]
  simp only []
  rw [if_pos henc]

theorem thumb_eval_ok {d : BlockDeserialiser}
    (hc : d.compression = ROut.ok CompressionAlgorithm.None)
    (hlen : 10 + d.checksum.checksum_byte_size ≤ d.buf.length)
    (henc : from_le ((d.buf.drop 8).take 2) ≤ 2) :
    d.deserialise_thumbnail_data = ROut.ok
      ((d.buf.drop 10).take (d.buf.length - d.checksum.checksum_byte_size - 10)) := by
  unfold BlockDeserialiser.deserialise_thumbnail_data
  rw [hc]
  simp only []
  rw [show enc_tag_offset CompressionAlgorithm.None = 8 from rfl]
  rw [read_field_ok (by omega)]
  simp only []
  rw [if_neg (by omega)]
  rw [data_end_eval (by omega)]
  simp only []
  rw [deserialise_data_eval_none hc (by omega) (by omega)]

theorem thumb_comp_panic {d : BlockDeserialiser} {c : CompressionAlgorithm}
    (hc : d.compression = ROut.ok c) (hcn : c ≠ CompressionAlgorithm.None)
    (hlen : 14 ≤ d.buf.length)
    (henc : from_le ((d.buf.drop 12).take 2) ≤ 2) :
    d.deserialise_thumbnail_data = ROut.panic := by
  have hoff : enc_tag_offset c = 12 := by
    cases c with
    | None => exact absurd rfl hcn
    | Deflate => rfl
    | Heatshrink11_4 => rfl
    | Heatshrink12_4 => rfl
  unfold BlockDeserialiser.deserialise_thumbnail_data
  rw [hc]
  simp only []
  rw [hoff]
  rw [read_field_ok (by omega)]
  simp only []
  rw [if_neg (by omega)]
  cases hde : d.data_end with
  | none => rfl
  | some stop =>
    simp only []
    exact deserialise_data_comp_panic hc hcn

theorem ini_ne_DLMM (d : BlockDeserialiser) :
    d.deserialise_ini_data ≠ ROut.err BlockDeserialiserError.DataLengthMissMatch := by
  intro h
  unfold BlockDeserialiser.deserialise_ini_data at h
  split at h
  · rename_i e he
    obtain ⟨v, hv⟩ := compression_err_inv he
    have hinj := ROut.err.inj h
    rw [hinj] at hv
    exact BlockDeserialiserError.noConfusion hv
  · exact ROut.noConfusion h
  · rename_i c hc
    rcases read_field_cases d.buf (enc_tag_offset c) 2 with hrf | hrf
    · rw [hrf] at h
      exact ROut.noConfusion h
    · rw [hrf] at h
      simp only [] at h
      split at h
      · exact BlockDeserialiserError.noConfusion (ROut.err.inj h)
      · split at h
        · exact ROut.noConfusion h
        · exact deserialise_data_ne_DLMM d _ _ h

theorem thumb_ne_DLMM (d : BlockDeserialiser) :
    d.deserialise_thumbnail_data ≠ ROut.err BlockDeserialiserError.DataLengthMissMatch := by
  intro h
  unfold BlockDeserialiser.deserialise_thumbnail_data at h
  split at h
  · rename_i e he
    obtain ⟨v, hv⟩ := compression_err_inv he
    have hinj := ROut.err.inj h
    rw [hinj] at hv
    exact BlockDeserialiserError.noConfusion hv
  · exact ROut.noConfusion h
  · rename_i c hc
    rcases read_field_cases d.buf (enc_tag_offset c) 2 with hrf | hrf
    · rw [hrf] at h
      exact ROut.noConfusion h
    · rw [hrf] at h
      simp only [] at h
      split at h
      · exact BlockDeserialiserError.noConfusion (ROut.err.inj h)
      · split at h
        · exact ROut.noConfusion h
        · exact deserialise_data_ne_DLMM d _ _ h

theorem deserialise_mismatch {d : BlockDeserialiser} {bs : Nat}
    (hbs : d.block_size = ROut.ok bs) (hne : (12 + bs) % USIZE ≠ d.buf.length) :
    d.deserialise = ROut.err BlockDeserialiserError.DataLengthMissMatch := by
  unfold BlockDeserialiser.deserialise
  rw [hbs]
  simp only []
  rw [if_pos hne]

theorem deserialise_dispatch_ini {d : BlockDeserialiser} {bs : Nat} {k : BlockKind}
    (hbs : d.block_size = ROut.ok bs) (heq : (12 + bs) % USIZE = d.buf.length)
    (hk : d.kind = ROut.ok k)
    (hini : k = BlockKind.FileMetadata ∨ k = BlockKind.SlicerMetadata ∨
      k = BlockKind.PrinterMetadata ∨ k = BlockKind.PrintMetadata) :
    d.deserialise = d.deserialise_ini_data := by
  unfold BlockDeserialiser.deserialise
  rw [hbs]
  simp only []
  rw [if_neg (not_not_intro heq), hk]
  rcases hini with h | h | h | h <;> rw [h]

theorem deserialise_dispatch_thumb {d : BlockDeserialiser} {bs : Nat}
    (hbs : d.block_size = ROut.ok bs) (heq : (12 + bs) % USIZE = d.buf.length)
    (hk : d.kind = ROut.ok BlockKind.Thumbnail) :
    d.deserialise = d.deserialise_thumbnail_data := by
  unfold BlockDeserialiser.deserialise
  rw [hbs]
  simp only []
  rw [if_neg (not_not_intro heq), hk]

theorem deserialise_dispatch_gcode {d : BlockDeserialiser} {bs : Nat}
    (hbs : d.block_size = ROut.ok bs) (heq : (12 + bs) % USIZE = d.buf.length)
    (hk : d.kind = ROut.ok BlockKind.GCode) :
    d.deserialise = ROut.panic := by
  unfold BlockDeserialiser.deserialise
  rw [hbs]
  simp only []
  rw [if_neg (not_not_intro heq), hk]

/-! ### Claim theorems -/

/-- C6: `BlockKind::new` succeeds exactly on the values 0 through 5, mapping them
one-to-one onto the six variants, and fails with `UnsupportedBlockKind(v)` on every
other value; `CompressionAlgorithm::new` succeeds exactly on 0 through 3 and fails
with `UnsupportedCompressionAlgorithm(v)` on every other value; no unknown value is
defaulted to a variant. -/
theorem C6_tag_decoding :
    (BlockKind.new 0 = ROut.ok BlockKind.FileMetadata ∧
      BlockKind.new 1 = ROut.ok BlockKind.GCode ∧
      BlockKind.new 2 = ROut.ok BlockKind.SlicerMetadata ∧
      BlockKind.new 3 = ROut.ok BlockKind.PrinterMetadata ∧
      BlockKind.new 4 = ROut.ok BlockKind.PrintMetadata ∧
      BlockKind.new 5 = ROut.ok BlockKind.Thumbnail) ∧
    (∀ v : Nat, 5 < v →
      BlockKind.new v = ROut.err (BlockDeserialiserError.UnsupportedBlockKind v)) ∧
    (CompressionAlgorithm.new 0 = ROut.ok CompressionAlgorithm.None ∧
      CompressionAlgorithm.new 1 = ROut.ok CompressionAlgorithm.Deflate ∧
      CompressionAlgorithm.new 2 = ROut.ok CompressionAlgorithm.Heatshrink11_4 ∧
      CompressionAlgorithm.new 3 = ROut.ok CompressionAlgorithm.Heatshrink12_4) ∧
    (∀ v : Nat, 3 < v →
      CompressionAlgorithm.new v =
        ROut.err (BlockDeserialiserError.UnsupportedCompressionAlgorithm v)) := by
  refine ⟨by decide, ?_, by decide, ?_⟩
  · intro v h
    match v, h with
    | (n + 6), _ => rfl
  · intro v h
    match v, h with
    | (n + 4), _ => rfl

/-- C6 witness: kind tag 6 and compression tag 4 are rejected with the raw value. -/
theorem C6_tag_decoding_witness :
    BlockKind.new 6 = ROut.err (BlockDeserialiserError.UnsupportedBlockKind 6) ∧
    CompressionAlgorithm.new 4 =
      ROut.err (BlockDeserialiserError.UnsupportedCompressionAlgorithm 4) :=
  ⟨C6_tag_decoding.2.1 6 (by decide), C6_tag_decoding.2.2.2 4 (by decide)⟩

/-- C7: `compressed_size()` is the `IsNotCompressed` error whenever bytes `[2..4)`
of the buffer parse to compression None, and is the little-endian u32 read from
bytes `[8..12)` whenever they parse to Deflate, Heatshrink11_4 or Heatshrink12_4
(and those bytes exist). -/
theorem C7_compressed_size (d : BlockDeserialiser) :
    (d.compression = ROut.ok CompressionAlgorithm.None →
      d.compressed_size = ROut.err BlockDeserialiserError.IsNotCompressed) ∧
    (∀ c, d.compression = ROut.ok c → c ≠ CompressionAlgorithm.None →
      12 ≤ d.buf.length →
      d.compressed_size = ROut.ok (from_le ((d.buf.drop 8).take 4))) := by
  constructor
  · intro hc
    unfold BlockDeserialiser.compressed_size
    rw [hc]
  · intro c hc hcn hlen
    have hrf := @read_field_ok d.buf 8 4 (by omega)
    norm_num at hrf
    unfold BlockDeserialiser.compressed_size
    rw [hc]
    cases c with
    | None => exact absurd rfl hcn
    | Deflate => rw [hrf]
    | Heatshrink11_4 => rw [hrf]
    | Heatshrink12_4 => rw [hrf]

/-- C7 witness: on a 12-byte Deflate header, `compressed_size()` reads the LE u32
at `[8..12)`; on the same header with compression tag 0 it is `IsNotCompressed`. -/
theorem C7_compressed_size_witness :
    BlockDeserialiser.compressed_size
      { buf := [0, 0, 1, 0, 9, 0, 0, 0, 2, 1, 0, 0], checksum := FileChecksum.none } =
      ROut.ok 258 ∧
    BlockDeserialiser.compressed_size
      { buf := [0, 0, 0, 0, 9, 0, 0, 0, 2, 1, 0, 0], checksum := FileChecksum.none } =
      ROut.err BlockDeserialiserError.IsNotCompressed := by
  constructor
  · have h := (C7_compressed_size
      { buf := [0, 0, 1, 0, 9, 0, 0, 0, 2, 1, 0, 0], checksum := FileChecksum.none }).2
      CompressionAlgorithm.Deflate (by decide) (by decide) (by decide)
    rw [h]
    decide
  · exact (C7_compressed_size
      { buf := [0, 0, 0, 0, 9, 0, 0, 0, 2, 1, 0, 0], checksum := FileChecksum.none }).1
      (by decide)

/-- C9 (code bug): the claimed `to_le_bytes` / `from_le_bytes` round-trip fails.
`GCode` and `Deflate` are encoded with `to_be_bytes` (yielding tag 256 on decode)
and `SlicerMetadata`, `PrinterMetadata`, `PrintMetadata`, `Thumbnail` are encoded
with tags 1, 2, 3, 4 — one below the tags their decoder accepts — so decoding the
encoding returns the wrong variant or an error for every kind except FileMetadata,
and for Deflate. -/
theorem C9_roundtrip_failure :
    BlockKind.from_le_bytes BlockKind.FileMetadata.to_le_bytes =
      ROut.ok BlockKind.FileMetadata ∧
    BlockKind.from_le_bytes BlockKind.GCode.to_le_bytes =
      ROut.err (BlockDeserialiserError.UnsupportedBlockKind 256) ∧
    BlockKind.from_le_bytes BlockKind.SlicerMetadata.to_le_bytes =
      ROut.ok BlockKind.GCode ∧
    BlockKind.from_le_bytes BlockKind.PrinterMetadata.to_le_bytes =
      ROut.ok BlockKind.SlicerMetadata ∧
    BlockKind.from_le_bytes BlockKind.PrintMetadata.to_le_bytes =
      ROut.ok BlockKind.PrinterMetadata ∧
    BlockKind.from_le_bytes BlockKind.Thumbnail.to_le_bytes =
      ROut.ok BlockKind.PrintMetadata ∧
    CompressionAlgorithm.from_le_bytes CompressionAlgorithm.Deflate.to_le_bytes =
      ROut.err (BlockDeserialiserError.UnsupportedCompressionAlgorithm 256) := by
  decide

theorem compressed_size_ok_inv {d : BlockDeserialiser} {cs : Nat}
    (h : d.compressed_size = ROut.ok cs) :
    12 ≤ d.buf.length ∧ cs = from_le ((d.buf.drop 8).take 4) := by
  unfold BlockDeserialiser.compressed_size at h
  split at h
  · exact absurd h (fun hq => ROut.noConfusion hq)
  · by_cases hlen : 12 ≤ d.buf.length
    · have hrf := @read_field_ok d.buf 8 4 (by omega)
      norm_num at hrf
      rw [hrf] at h
      simp only [] at h
      exact ⟨hlen, (ROut.ok.inj h).symm⟩
    · have hrf := @read_field_panic d.buf 8 4 (by omega)
      norm_num at hrf
      rw [hrf] at h
      exact absurd h (fun hq => ROut.noConfusion hq)
  · exact absurd h (fun hq => ROut.noConfusion hq)
  · exact absurd h (fun hq => ROut.noConfusion hq)

/-- C1: for a parseable header, `block_size()` is
`parameter_width(kind) + checksum_trailer_width - 4 + uncompressed_size` when
compression is None (whenever that value is non-negative), and
`parameter_width(kind) + checksum_trailer_width + compressed_size` otherwise,
with parameter width 6 for Thumbnail and 2 for every other kind. -/
theorem C1_block_size (d : BlockDeserialiser) (k : BlockKind) (c : CompressionAlgorithm)
    (hb : bytes_ok d.buf = true)
    (hk : d.kind = ROut.ok k) (hc : d.compression = ROut.ok c) :
    k.parameter_byte_size = (if k = BlockKind.Thumbnail then 6 else 2) ∧
    (c = CompressionAlgorithm.None →
      ∀ u, d.uncompressed_size = ROut.ok u →
        4 ≤ k.parameter_byte_size + d.checksum.checksum_byte_size + u →
        d.block_size =
          ROut.ok (k.parameter_byte_size + d.checksum.checksum_byte_size + u - 4)) ∧
    (c ≠ CompressionAlgorithm.None →
      ∀ cs, d.compressed_size = ROut.ok cs →
        d.block_size =
          ROut.ok (k.parameter_byte_size + d.checksum.checksum_byte_size + cs)) := by
  have hpw : k.parameter_byte_size ≤ 6 := by cases k <;> decide
  have hct : d.checksum.checksum_byte_size ≤ 4 := by cases hck : d.checksum <;> decide
  refine ⟨by cases k <;> decide, ?_, ?_⟩
  · intro hcn u hu hge
    subst hcn
    obtain ⟨hlen8, hueq⟩ := uncompressed_size_ok_inv hu
    have hub : u < 4294967296 := by
      rw [hueq]
      have := @slice_val_lt d.buf hb 4 4 (by omega)
      norm_num at this
      exact this
    rw [block_size_eval_none hk hc hu]
    simp only [ROut.ok.injEq]
    rw [USIZE_eq]
    omega
  · intro hcn cs hcs
    obtain ⟨hlen12, hcseq⟩ := compressed_size_ok_inv hcs
    have hub : cs < 4294967296 := by
      rw [hcseq]
      have := @slice_val_lt d.buf hb 8 4 (by omega)
      norm_num at this
      exact this
    rw [block_size_eval_comp hk hc hcn hcs]
    simp only [ROut.ok.injEq]
    rw [USIZE_eq]
    omega

/-- C1 witness: an uncompressed FileMetadata header with uncompressed size 5 and
checksum mode None yields `block_size() = 2 + 0 - 4 + 5 = 3`. -/
theorem C1_block_size_witness :
    BlockDeserialiser.block_size
      { buf := [0, 0, 0, 0, 5, 0, 0, 0, 0, 0, 0, 0], checksum := FileChecksum.none } =
      ROut.ok 3 :=
  (C1_block_size
    { buf := [0, 0, 0, 0, 5, 0, 0, 0, 0, 0, 0, 0], checksum := FileChecksum.none }
    BlockKind.FileMetadata CompressionAlgorithm.None
    (by decide) (by decide) (by decide)).2.1 rfl 5 (by decide) (by decide)

theorem deserialise_ne_DLMM_of_exact {d : BlockDeserialiser} {bs : Nat}
    (hbs : d.block_size = ROut.ok bs)
    (heq : (12 + bs) % USIZE = d.buf.length) :
    d.deserialise ≠ ROut.err BlockDeserialiserError.DataLengthMissMatch := by
  intro h
  obtain ⟨k, c, hk, hc, _⟩ := block_size_ok_inv hbs
  cases k with
  | GCode =>
    rw [deserialise_dispatch_gcode hbs heq hk] at h
    exact ROut.noConfusion h
  | Thumbnail =>
    rw [deserialise_dispatch_thumb hbs heq hk] at h
    exact thumb_ne_DLMM d h
  | FileMetadata =>
    rw [deserialise_dispatch_ini hbs heq hk (Or.inl rfl)] at h
    exact ini_ne_DLMM d h
  | SlicerMetadata =>
    rw [deserialise_dispatch_ini hbs heq hk (Or.inr (Or.inl rfl))] at h
    exact ini_ne_DLMM d h
  | PrinterMetadata =>
    rw [deserialise_dispatch_ini hbs heq hk (Or.inr (Or.inr (Or.inl rfl)))] at h
    exact ini_ne_DLMM d h
  | PrintMetadata =>
    rw [deserialise_dispatch_ini hbs heq hk (Or.inr (Or.inr (Or.inr rfl)))] at h
    exact ini_ne_DLMM d h

/-- C5: when `block_size()` succeeds, `deserialise()` fails with
`DataLengthMissMatch` exactly when the buffer length differs from
`12 + block_size()` (as computed by the code, wrapping in `usize`); at the exact
length it proceeds to per-kind dispatch and never returns `DataLengthMissMatch`. -/
theorem C5_length_check (d : BlockDeserialiser) (bs : Nat)
    (hbs : d.block_size = ROut.ok bs) :
    d.deserialise = ROut.err BlockDeserialiserError.DataLengthMissMatch ↔
      (12 + bs) % USIZE ≠ d.buf.length := by
  constructor
  · intro h
    by_contra hnn
    exact deserialise_ne_DLMM_of_exact hbs hnn h
  · exact deserialise_mismatch hbs

/-- C5 witness: a 12-byte buffer whose header asks for 2 more bytes is rejected
with `DataLengthMissMatch`. -/
theorem C5_length_check_witness :
    BlockDeserialiser.deserialise
      { buf := [0, 0, 0, 0, 4, 0, 0, 0, 0, 0, 0, 0], checksum := FileChecksum.none } =
      ROut.err BlockDeserialiserError.DataLengthMissMatch :=
  (C5_length_check
    { buf := [0, 0, 0, 0, 4, 0, 0, 0, 0, 0, 0, 0], checksum := FileChecksum.none }
    2 (by decide)).mpr (by decide)

/-- C3: for a text-metadata block (FileMetadata, SlicerMetadata, PrinterMetadata,
PrintMetadata) with compression None whose length check and encoding-tag check
pass, `deserialise()` returns exactly the bytes of the buffer from two bytes past
the encoding-tag offset (offset 10) up to the buffer length minus the checksum
trailer width, as an unmodified pass-through copy. -/
theorem C3_ini_passthrough (d : BlockDeserialiser) (k : BlockKind) (u bs : Nat)
    (hb : bytes_ok d.buf = true)
    (hk : d.kind = ROut.ok k)
    (hini : k = BlockKind.FileMetadata ∨ k = BlockKind.SlicerMetadata ∨
      k = BlockKind.PrinterMetadata ∨ k = BlockKind.PrintMetadata)
    (hc : d.compression = ROut.ok CompressionAlgorithm.None)
    (hu : d.uncompressed_size = ROut.ok u)
    (hbs : d.block_size = ROut.ok bs)
    (hlen : (12 + bs) % USIZE = d.buf.length)
    (henc : from_le ((d.buf.drop 8).take 2) = 0) :
    d.deserialise = ROut.ok
      ((d.buf.drop 10).take (d.buf.length - d.checksum.checksum_byte_size - 10)) := by
  have hpw : k.parameter_byte_size = 2 := by
    rcases hini with h | h | h | h <;> subst h <;> rfl
  obtain ⟨hlen8, hueq⟩ := uncompressed_size_ok_inv hu
  have hub : u < 4294967296 := by
    rw [hueq]
    have := @slice_val_lt d.buf hb 4 4 (by omega)
    norm_num at this
    exact this
  have hct : d.checksum.checksum_byte_size ≤ 4 := by cases hck : d.checksum <;> decide
  have hbs2 := block_size_eval_none hk hc hu
  rw [hpw, hbs] at hbs2
  have hbsval : bs =
      ((2 + d.checksum.checksum_byte_size + USIZE - 4) % USIZE + u) % USIZE :=
    ROut.ok.inj hbs2
  have hlenval : d.buf.length = 10 + d.checksum.checksum_byte_size + u := by
    rw [← hlen, hbsval, USIZE_eq]
    omega
  rw [deserialise_dispatch_ini hbs hlen hk hini]
  exact ini_eval_ok hc (by omega) henc

/-- C3 witness: an uncompressed FileMetadata block with tag 0, payload `abc` and
checksum mode None deserialises to exactly that payload. -/
theorem C3_ini_passthrough_witness :
    BlockDeserialiser.deserialise
      { buf := [0, 0, 0, 0, 3, 0, 0, 0, 0, 0, 97, 98, 99],
        checksum := FileChecksum.none } = ROut.ok [97, 98, 99] := by
  have h := C3_ini_passthrough
    { buf := [0, 0, 0, 0, 3, 0, 0, 0, 0, 0, 97, 98, 99], checksum := FileChecksum.none }
    BlockKind.FileMetadata 3 1 (by decide) (by decide) (Or.inl rfl) (by decide)
    (by decide) (by decide) (by decide) (by decide)
  rw [h]
  decide

/-- C4: during `deserialise`, the 16-bit LE encoding tag is read at offset 8 when
compression is None and 12 otherwise; on text-metadata kinds every tag other
than 0 fails with `EncodingError(tag)`, on Thumbnail every tag greater than 2
fails with `EncodingError(tag)`, and a Thumbnail tag of at most 2 (so in
particular 2) succeeds structurally on an uncompressed block. -/
theorem C4_encoding_validation (d : BlockDeserialiser) (bs : Nat) (k : BlockKind)
    (c : CompressionAlgorithm) (t : Nat)
    (hb : bytes_ok d.buf = true)
    (hbs : d.block_size = ROut.ok bs)
    (hlen : (12 + bs) % USIZE = d.buf.length)
    (hk : d.kind = ROut.ok k)
    (hc : d.compression = ROut.ok c)
    (ht : t = from_le ((d.buf.drop (enc_tag_offset c)).take 2)) :
    (enc_tag_offset c = if c = CompressionAlgorithm.None then 8 else 12) ∧
    ((k = BlockKind.FileMetadata ∨ k = BlockKind.SlicerMetadata ∨
        k = BlockKind.PrinterMetadata ∨ k = BlockKind.PrintMetadata) →
      (d.deserialise = ROut.err (BlockDeserialiserError.EncodingError t) ↔ t ≠ 0)) ∧
    (k = BlockKind.Thumbnail →
      (d.deserialise = ROut.err (BlockDeserialiserError.EncodingError t) ↔ 2 < t)) ∧
    (k = BlockKind.Thumbnail → c = CompressionAlgorithm.None → t ≤ 2 →
      ∃ v, d.deserialise = ROut.ok v) := by
  have hpwl : 2 ≤ k.parameter_byte_size := by cases k <;> decide
  have hpwu : k.parameter_byte_size ≤ 6 := by cases k <;> decide
  have hct : d.checksum.checksum_byte_size ≤ 4 := by cases hck : d.checksum <;> decide
  obtain ⟨k2, c2, hk2, hc2, hcase⟩ := block_size_ok_inv hbs
  rw [hk] at hk2
  rw [hc] at hc2
  have hkk : k = k2 := ROut.ok.inj hk2
  have hcc : c = c2 := ROut.ok.inj hc2
  rw [← hkk, ← hcc] at hcase
  clear hk2 hc2
  rcases hcase with ⟨hcN, u, hu, hbsval⟩ | ⟨hcN, cs, hcs, hbsval⟩
  · -- compression None: tag at offset 8
    subst hcN
    obtain ⟨hlen8, hueq⟩ := uncompressed_size_ok_inv hu
    have hub : u < 4294967296 := by
      rw [hueq]
      have := @slice_val_lt d.buf hb 4 4 (by omega)
      norm_num at this
      exact this
    have hlenval : d.buf.length =
        8 + k.parameter_byte_size + d.checksum.checksum_byte_size + u := by
      rw [← hlen, hbsval, USIZE_eq]
      omega
    have htag : t = from_le ((d.buf.drop 8).take 2) := ht
    refine ⟨by decide, ?_, ?_, ?_⟩
    · intro hini
      have hpw : k.parameter_byte_size = 2 := by
        rcases hini with h | h | h | h <;> rw [h] <;> decide
      rw [deserialise_dispatch_ini hbs hlen hk hini]
      constructor
      · intro h
        by_contra ht0
        rw [ini_eval_ok hc (by omega) (by rw [← htag]; exact ht0)] at h
        exact ROut.noConfusion h
      · intro ht0
        rw [ini_eval_err hc
          (by rw [show enc_tag_offset CompressionAlgorithm.None = 8 from rfl]; omega)
          (by rw [show enc_tag_offset CompressionAlgorithm.None = 8 from rfl, ← htag]
              exact ht0)]
        rw [show enc_tag_offset CompressionAlgorithm.None = 8 from rfl, ← htag]
    · intro hkT
      have hpw : k.parameter_byte_size = 6 := by rw [hkT]; decide
      rw [deserialise_dispatch_thumb hbs hlen (by rw [← hkT]; exact hk)]
      constructor
      · intro h
        by_contra ht2
        have ht2a : t ≤ 2 := by omega
        rw [thumb_eval_ok hc (by omega) (by rw [← htag]; exact ht2a)] at h
        exact ROut.noConfusion h
      · intro ht2
        rw [thumb_eval_err hc
          (by rw [show enc_tag_offset CompressionAlgorithm.None = 8 from rfl]; omega)
          (by rw [show enc_tag_offset CompressionAlgorithm.None = 8 from rfl, ← htag]
              exact ht2)]
        rw [show enc_tag_offset CompressionAlgorithm.None = 8 from rfl, ← htag]
    · intro hkT _ ht2
      have hpw : k.parameter_byte_size = 6 := by rw [hkT]; decide
      rw [deserialise_dispatch_thumb hbs hlen (by rw [← hkT]; exact hk)]
      exact ⟨_, thumb_eval_ok hc (by omega) (by rw [← htag]; exact ht2)⟩
  · -- compression is not None: tag at offset 12
    obtain ⟨hlen12, hcseq⟩ := compressed_size_ok_inv hcs
    have hub : cs < 4294967296 := by
      rw [hcseq]
      have := @slice_val_lt d.buf hb 8 4 (by omega)
      norm_num at this
      exact this
    have hlenval : d.buf.length =
        12 + k.parameter_byte_size + d.checksum.checksum_byte_size + cs := by
      rw [← hlen, hbsval, USIZE_eq]
      omega
    have hoff : enc_tag_offset c = 12 := by
      cases c with
      | None => exact absurd rfl hcN
      | Deflate => rfl
      | Heatshrink11_4 => rfl
      | Heatshrink12_4 => rfl
    have htag : t = from_le ((d.buf.drop 12).take 2) := by rw [ht, hoff]
    refine ⟨?_, ?_, ?_, ?_⟩
    · rw [hoff, if_neg hcN]
    · intro hini
      rw [deserialise_dispatch_ini hbs hlen hk hini]
      constructor
      · intro h
        by_contra ht0
        rw [ini_comp_panic hc hcN (by omega) (by rw [← htag]; exact ht0)] at h
        exact ROut.noConfusion h
      · intro ht0
        rw [ini_eval_err hc (by rw [hoff]; omega) (by rw [hoff, ← htag]; exact ht0)]
        rw [hoff, ← htag]
    · intro hkT
      rw [deserialise_dispatch_thumb hbs hlen (by rw [← hkT]; exact hk)]
      constructor
      · intro h
        by_contra ht2
        have ht2a : t ≤ 2 := by omega
        rw [thumb_comp_panic hc hcN (by omega) (by rw [← htag]; exact ht2a)] at h
        exact ROut.noConfusion h
      · intro ht2
        rw [thumb_eval_err hc (by rw [hoff]; omega) (by rw [hoff, ← htag]; exact ht2)]
        rw [hoff, ← htag]
    · intro _ hcNone
      exact absurd hcNone hcN

/-- C4 witness: an uncompressed SlicerMetadata block with encoding tag 1 fails
with `EncodingError(1)`. -/
theorem C4_encoding_validation_witness :
    BlockDeserialiser.deserialise
      { buf := [2, 0, 0, 0, 3, 0, 0, 0, 1, 0, 97, 98, 99],
        checksum := FileChecksum.none } =
      ROut.err (BlockDeserialiserError.EncodingError 1) := by
  have h := C4_encoding_validation
    { buf := [2, 0, 0, 0, 3, 0, 0, 0, 1, 0, 97, 98, 99], checksum := FileChecksum.none }
    1 BlockKind.SlicerMetadata CompressionAlgorithm.None 1
    (by decide) (by decide) (by decide) (by decide) (by decide) (by decide)
  exact (h.2.1 (Or.inr (Or.inl rfl))).mpr (by decide)

theorem sliceRange_append {buf ys : List Nat} {lo hi : Nat} (h : hi ≤ buf.length) :
    sliceRange (buf ++ ys) lo hi = sliceRange buf lo hi := by
  unfold sliceRange
  by_cases hlh : lo ≤ hi
  · rw [if_pos ⟨hlh, by simp; omega⟩, if_pos ⟨hlh, h⟩]
    rw [List.drop_append_of_le_length (by omega)]
    rw [List.take_append_of_le_length (by simp [List.length_drop]; omega)]
  · rw [if_neg (fun hq => hlh hq.1), if_neg (fun hq => hlh hq.1)]

theorem read_field_append {buf ys : List Nat} {lo hi n : Nat} (h : hi ≤ buf.length) :
    read_field (buf ++ ys) lo hi n = read_field buf lo hi n := by
  unfold read_field
  rw [sliceRange_append h]

theorem block_size_append {d : BlockDeserialiser} (ys : List Nat)
    (h12 : 12 ≤ d.buf.length) :
    BlockDeserialiser.block_size { d with buf := d.buf ++ ys } = d.block_size := by
  have hkind : BlockDeserialiser.kind { d with buf := d.buf ++ ys } = d.kind := by
    unfold BlockDeserialiser.kind
    rw [show ({ d with buf := d.buf ++ ys } : BlockDeserialiser).buf = d.buf ++ ys from rfl]
    rw [read_field_append (by omega)]
  have hcomp : BlockDeserialiser.compression { d with buf := d.buf ++ ys } =
      d.compression := by
    unfold BlockDeserialiser.compression
    rw [show ({ d with buf := d.buf ++ ys } : BlockDeserialiser).buf = d.buf ++ ys from rfl]
    rw [read_field_append (by omega)]
  have hun : BlockDeserialiser.uncompressed_size { d with buf := d.buf ++ ys } =
      d.uncompressed_size := by
    unfold BlockDeserialiser.uncompressed_size
    rw [show ({ d with buf := d.buf ++ ys } : BlockDeserialiser).buf = d.buf ++ ys from rfl]
    rw [read_field_append (by omega)]
  have hcs : BlockDeserialiser.compressed_size { d with buf := d.buf ++ ys } =
      d.compressed_size := by
    unfold BlockDeserialiser.compressed_size
    rw [hcomp]
    rw [show ({ d with buf := d.buf ++ ys } : BlockDeserialiser).buf = d.buf ++ ys from rfl]
    rw [read_field_append (by omega)]
  unfold BlockDeserialiser.block_size
  rw [hkind, hcomp, hun, hcs]

/-- C10: after `header_buf()` resets the buffer to 12 zero bytes and the caller
fills in a valid 12-byte header, a successful `data_buf()` grows the buffer by
exactly `block_size()` zero bytes, so the buffer length is exactly
`12 + block_size()` and a subsequent `deserialise()` never fails with
`DataLengthMissMatch`. -/
theorem C10_data_buf (d : BlockDeserialiser) (bs : Nat)
    (hlen : d.buf.length = 12) (hbs : d.block_size = ROut.ok bs) :
    d.header_buf.buf = List.replicate 12 0 ∧
    ∀ d2, d.data_buf = ROut.ok d2 →
      d2.buf = d.buf ++ List.replicate bs 0 ∧
      d2.buf.length = 12 + bs ∧
      d2.deserialise ≠ ROut.err BlockDeserialiserError.DataLengthMissMatch := by
  refine ⟨rfl, ?_⟩
  intro d2 h
  unfold BlockDeserialiser.data_buf at h
  rw [hbs] at h
  simp only [] at h
  split at h
  · exact absurd h (fun hq => ROut.noConfusion hq)
  · rename_i hcap
    rw [hlen] at hcap
    have hd2 : d2 = { d with buf := d.buf ++ List.replicate bs 0 } :=
      (ROut.ok.inj h).symm
    have hlen2 : d2.buf.length = 12 + bs := by
      rw [hd2]
      simp [List.length_append, List.length_replicate, hlen]
    have hbs2 : d2.block_size = ROut.ok bs := by
      rw [hd2, block_size_append (List.replicate bs 0) (by omega), hbs]
    refine ⟨by rw [hd2], hlen2, ?_⟩
    have hsmall : 12 + bs < USIZE := by
      rw [USIZE_eq]
      rw [ISIZE_MAX_eq] at hcap
      omega
    have heq : (12 + bs) % USIZE = d2.buf.length := by
      rw [hlen2, Nat.mod_eq_of_lt hsmall]
    exact deserialise_ne_DLMM_of_exact hbs2 heq

/-- C10 witness: a 12-byte FileMetadata header asking for 2 payload bytes grows
to 14 bytes under `data_buf`, and `deserialise` on the grown buffer does not
report a length mismatch. -/
theorem C10_data_buf_witness :
    BlockDeserialiser.deserialise
      { buf := [0, 0, 0, 0, 4, 0, 0, 0, 0, 0, 0, 0] ++ List.replicate 2 0,
        checksum := FileChecksum.none } ≠
      ROut.err BlockDeserialiserError.DataLengthMissMatch :=
  ((C10_data_buf
    { buf := [0, 0, 0, 0, 4, 0, 0, 0, 0, 0, 0, 0], checksum := FileChecksum.none }
    2 (by decide) (by decide)).2
    { buf := [0, 0, 0, 0, 4, 0, 0, 0, 0, 0, 0, 0] ++ List.replicate 2 0,
      checksum := FileChecksum.none }
    (by decide)).2.2

/-- C8 counterexample: an uncompressed FileMetadata block whose 16-bit value at
offset `8 + parameter_width = 10` is 1 deserialises successfully (the code reads
the encoding tag at offset 8, not after the parameter region, and the returned
payload even starts at offset 10), so the claimed tag offset is wrong. -/
theorem C8_counterexample :
    BlockDeserialiser.deserialise
      { buf := [0, 0, 0, 0, 4, 0, 0, 0, 0, 0, 1, 0, 7, 7],
        checksum := FileChecksum.none } = ROut.ok [1, 0, 7, 7] ∧
    from_le ((([0, 0, 0, 0, 4, 0, 0, 0, 0, 0, 1, 0, 7, 7] : List Nat).drop
      (8 + BlockKind.FileMetadata.parameter_byte_size)).take 2) = 1 := by
  decide

/-- C8 (amended): the encoding tag is read at offset 8 when compression is None
(12 otherwise), i.e. at the start of the parameter region rather than after it,
and the payload starts immediately after the tag at offset `8 + 2`. -/
theorem C8_payload_offset (d : BlockDeserialiser) (bs u : Nat) (k : BlockKind)
    (hb : bytes_ok d.buf = true)
    (hk : d.kind = ROut.ok k) (hkg : k ≠ BlockKind.GCode)
    (hc : d.compression = ROut.ok CompressionAlgorithm.None)
    (hu : d.uncompressed_size = ROut.ok u)
    (hbs : d.block_size = ROut.ok bs)
    (hlen : (12 + bs) % USIZE = d.buf.length)
    (hpass : if k = BlockKind.Thumbnail then from_le ((d.buf.drop 8).take 2) ≤ 2
      else from_le ((d.buf.drop 8).take 2) = 0) :
    d.deserialise = ROut.ok
      ((d.buf.drop (8 + 2)).take
        (d.buf.length - d.checksum.checksum_byte_size - (8 + 2))) := by
  have hpwl : 2 ≤ k.parameter_byte_size := by cases k <;> decide
  have hpwu : k.parameter_byte_size ≤ 6 := by cases k <;> decide
  have hct : d.checksum.checksum_byte_size ≤ 4 := by cases hck : d.checksum <;> decide
  obtain ⟨hlen8, hueq⟩ := uncompressed_size_ok_inv hu
  have hub : u < 4294967296 := by
    rw [hueq]
    have := @slice_val_lt d.buf hb 4 4 (by omega)
    norm_num at this
    exact this
  have hbs2 := block_size_eval_none hk hc hu
  rw [hbs] at hbs2
  have hbsval : bs =
      ((k.parameter_byte_size + d.checksum.checksum_byte_size + USIZE - 4) % USIZE + u)
        % USIZE := ROut.ok.inj hbs2
  have hlenval : d.buf.length =
      8 + k.parameter_byte_size + d.checksum.checksum_byte_size + u := by
    rw [← hlen, hbsval, USIZE_eq]
    omega
  rw [show (8 + 2 : Nat) = 10 from rfl]
  cases k with
  | GCode => exact absurd rfl hkg
  | Thumbnail =>
    rw [if_pos rfl] at hpass
    rw [deserialise_dispatch_thumb hbs hlen hk]
    exact thumb_eval_ok hc (by omega) hpass
  | FileMetadata =>
    rw [if_neg (by decide)] at hpass
    rw [deserialise_dispatch_ini hbs hlen hk (Or.inl rfl)]
    exact ini_eval_ok hc (by omega) hpass
  | SlicerMetadata =>
    rw [if_neg (by decide)] at hpass
    rw [deserialise_dispatch_ini hbs hlen hk (Or.inr (Or.inl rfl))]
    exact ini_eval_ok hc (by omega) hpass
  | PrinterMetadata =>
    rw [if_neg (by decide)] at hpass
    rw [deserialise_dispatch_ini hbs hlen hk (Or.inr (Or.inr (Or.inl rfl)))]
    exact ini_eval_ok hc (by omega) hpass
  | PrintMetadata =>
    rw [if_neg (by decide)] at hpass
    rw [deserialise_dispatch_ini hbs hlen hk (Or.inr (Or.inr (Or.inr rfl)))]
    exact ini_eval_ok hc (by omega) hpass

/-- C8 witness: an uncompressed Thumbnail block with tag 2 returns the bytes from
offset 10 on — including the bytes the spec calls the parameter region. -/
theorem C8_payload_offset_witness :
    BlockDeserialiser.deserialise
      { buf := [5, 0, 0, 0, 3, 0, 0, 0, 2, 0, 9, 9, 9, 9, 1, 2, 3],
        checksum := FileChecksum.none } = ROut.ok [9, 9, 9, 9, 1, 2, 3] := by
  have h := C8_payload_offset
    { buf := [5, 0, 0, 0, 3, 0, 0, 0, 2, 0, 9, 9, 9, 9, 1, 2, 3],
      checksum := FileChecksum.none }
    5 3 BlockKind.Thumbnail (by decide) (by decide) (by decide) (by decide)
    (by decide) (by decide) (by decide) (by decide)
  rw [h]
  decide

/-- C2 counterexample: an accessor on a buffer shorter than the field's byte
range panics (slice-index panic) instead of returning `TryFromSliceError`, and
`deserialise` of a correct-length GCode block or of a correct-length
Deflate-compressed FileMetadata block with a passing encoding tag panics via
`todo!()` instead of returning a typed error. -/
theorem C2_counterexample :
    BlockDeserialiser.kind { buf := [], checksum := FileChecksum.none } =
      ROut.panic ∧
    BlockDeserialiser.deserialise
      { buf := [1, 0, 0, 0, 4, 0, 0, 0, 0, 0, 0, 0, 0, 0],
        checksum := FileChecksum.none } = ROut.panic ∧
    BlockDeserialiser.deserialise
      { buf := [0, 0, 1, 0, 9, 0, 0, 0, 2, 0, 0, 0, 0, 0, 1, 2],
        checksum := FileChecksum.none } = ROut.panic := by
  decide

/-- C2 (amended): accessors applied to a buffer shorter than the field's byte
range panic on the slice index (never reaching `try_from_slice`), and
`deserialise` of a correct-length GCode block, or of a correct-length
Deflate/Heatshrink-compressed block whose encoding tag passes validation,
panics via `todo!()`; tag validation, the length check and unknown-tag decoding
still surface typed errors. -/
theorem C2_panic_behaviour :
    (∀ d : BlockDeserialiser, d.buf.length < 2 → d.kind = ROut.panic) ∧
    (∀ d : BlockDeserialiser, d.buf.length < 4 → d.compression = ROut.panic) ∧
    (∀ d : BlockDeserialiser, d.buf.length < 8 → d.uncompressed_size = ROut.panic) ∧
    (∀ (d : BlockDeserialiser) (c : CompressionAlgorithm),
      d.compression = ROut.ok c → c ≠ CompressionAlgorithm.None →
      d.buf.length < 12 → d.compressed_size = ROut.panic) ∧
    (∀ (d : BlockDeserialiser) (bs : Nat), d.block_size = ROut.ok bs →
      (12 + bs) % USIZE = d.buf.length → d.kind = ROut.ok BlockKind.GCode →
      d.deserialise = ROut.panic) ∧
    (∀ (d : BlockDeserialiser) (bs : Nat) (k : BlockKind) (c : CompressionAlgorithm),
      bytes_ok d.buf = true → d.block_size = ROut.ok bs →
      (12 + bs) % USIZE = d.buf.length → d.kind = ROut.ok k →
      d.compression = ROut.ok c → c ≠ CompressionAlgorithm.None →
      (if k = BlockKind.Thumbnail then from_le ((d.buf.drop 12).take 2) ≤ 2
        else from_le ((d.buf.drop 12).take 2) = 0) →
      d.deserialise = ROut.panic) := by
  refine ⟨?_, ?_, ?_, ?_, ?_, ?_⟩
  · intro d h
    exact kind_panic h
  · intro d h
    exact compression_panic h
  · intro d h
    exact uncompressed_size_panic h
  · intro d c hc hcn hlen
    unfold BlockDeserialiser.compressed_size
    rw [hc]
    have hrf := @read_field_panic d.buf 8 4 (by omega)
    norm_num at hrf
    cases c with
    | None => exact absurd rfl hcn
    | Deflate => rw [hrf]
    | Heatshrink11_4 => rw [hrf]
    | Heatshrink12_4 => rw [hrf]
  · intro d bs hbs hlen hk
    exact deserialise_dispatch_gcode hbs hlen hk
  · intro d bs k c hb hbs hlen hk hc hcn hpass
    have hpwl : 2 ≤ k.parameter_byte_size := by cases k <;> decide
    have hpwu : k.parameter_byte_size ≤ 6 := by cases k <;> decide
    have hct : d.checksum.checksum_byte_size ≤ 4 := by cases hck : d.checksum <;> decide
    obtain ⟨k2, c2, hk2, hc2, hcase⟩ := block_size_ok_inv hbs
    rw [hk] at hk2
    rw [hc] at hc2
    have hkk : k = k2 := ROut.ok.inj hk2
    have hcc : c = c2 := ROut.ok.inj hc2
    rw [← hkk, ← hcc] at hcase
    clear hk2 hc2
    rcases hcase with ⟨hcN, _, _, _⟩ | ⟨_, cs, hcs, hbsval⟩
    · exact absurd hcN hcn
    · obtain ⟨hlen12, hcseq⟩ := compressed_size_ok_inv hcs
      have hub : cs < 4294967296 := by
        rw [hcseq]
        have := @slice_val_lt d.buf hb 8 4 (by omega)
        norm_num at this
        exact this
      have hlenval : d.buf.length =
          12 + k.parameter_byte_size + d.checksum.checksum_byte_size + cs := by
        rw [← hlen, hbsval, USIZE_eq]
        omega
      cases k with
      | GCode => exact deserialise_dispatch_gcode hbs hlen hk
      | Thumbnail =>
        rw [if_pos rfl] at hpass
        rw [deserialise_dispatch_thumb hbs hlen hk]
        exact thumb_comp_panic hc hcn (by omega) hpass
      | FileMetadata =>
        rw [if_neg (by decide)] at hpass
        rw [deserialise_dispatch_ini hbs hlen hk (Or.inl rfl)]
        exact ini_comp_panic hc hcn (by omega) hpass
      | SlicerMetadata =>
        rw [if_neg (by decide)] at hpass
        rw [deserialise_dispatch_ini hbs hlen hk (Or.inr (Or.inl rfl))]
        exact ini_comp_panic hc hcn (by omega) hpass
      | PrinterMetadata =>
        rw [if_neg (by decide)] at hpass
        rw [deserialise_dispatch_ini hbs hlen hk (Or.inr (Or.inr (Or.inl rfl)))]
        exact ini_comp_panic hc hcn (by omega) hpass
      | PrintMetadata =>
        rw [if_neg (by decide)] at hpass
        rw [deserialise_dispatch_ini hbs hlen hk (Or.inr (Or.inr (Or.inr rfl)))]
        exact ini_comp_panic hc hcn (by omega) hpass

/-- C2 witness: the kind accessor on a one-byte buffer panics. -/
theorem C2_panic_behaviour_witness :
    BlockDeserialiser.kind { buf := [1], checksum := FileChecksum.crc32 } =
      ROut.panic :=
  C2_panic_behaviour.1 { buf := [1], checksum := FileChecksum.crc32 } (by decide)
